import Mathlib

/-!
Verification of the nerine-tweaks challenge-deployment orchestrator
(crates/deployer-server, crates/deployer-common) against its
natural-language specification.

The Rust sources are shallowly embedded: pure functions become Lean
functions over `Nat`/`Int`/`String`/`List`, machine integers are `Nat`
with explicit wrapping/saturation where the source wraps or saturates,
database state is a `List` of deployment rows, transactions become pure
state transformers whose result is the committed net effect, and remote
calls that can fail are driven by explicit failure oracles.
-/

namespace NerineTweaks

/-! ### 32-bit helpers (Nat with explicit wrap-around, as in the Rust u32 arithmetic) -/

def u32mod : Nat := 4294967296

def add32 (a b : Nat) : Nat := (a + b) % u32mod

def rotr32 (n x : Nat) : Nat := ((x >>> n) ||| (x <<< (32 - n))) % u32mod

def shaCh (x y z : Nat) : Nat := (x &&& y) ^^^ ((x ^^^ 4294967295) &&& z)

def shaMaj (x y z : Nat) : Nat := (x &&& y) ^^^ (x &&& z) ^^^ (y &&& z)

def bsig0 (x : Nat) : Nat := rotr32 2 x ^^^ rotr32 13 x ^^^ rotr32 22 x

def bsig1 (x : Nat) : Nat := rotr32 6 x ^^^ rotr32 11 x ^^^ rotr32 25 x

def ssig0 (x : Nat) : Nat := rotr32 7 x ^^^ rotr32 18 x ^^^ (x >>> 3)

def ssig1 (x : Nat) : Nat := rotr32 17 x ^^^ rotr32 19 x ^^^ (x >>> 10)

/-! ### SHA-256 (FIPS 180-4), over byte lists, used by the address computer -/

def shaH0 : List Nat :=
  [1779033703, 3144134277, 1013904242, 2773480762,
   1359893119, 2600822924, 528734635, 1541459225]

def shaK : List Nat :=
  [1116352408, 1899447441, 3049323471, 3921009573, 961987163,
   1508970993, 2453635748, 2870763221, 3624381080, 310598401,
   607225278, 1426881987, 1925078388, 2162078206, 2614888103,
   3248222580, 3835390401, 4022224774, 264347078, 604807628,
   770255983, 1249150122, 1555081692, 1996064986, 2554220882,
   2821834349, 2952996808, 3210313671, 3336571891, 3584528711,
   113926993, 338241895, 666307205, 773529912, 1294757372,
   1396182291, 1695183700, 1986661051, 2177026350, 2456956037,
   2730485921, 2820302411, 3259730800, 3345764771, 3516065817,
   3600352804, 4094571909, 275423344, 430227734, 506948616,
   659060556, 883997877, 958139571, 1322822218, 1537002063,
   1747873779, 1955562222, 2024104815, 2227730452, 2361852424,
   2428436474, 2756734187, 3204031479, 3329325298]

def be64 (n : Nat) : List Nat :=
  [(n >>> 56) &&& 255, (n >>> 48) &&& 255, (n >>> 40) &&& 255, (n >>> 32) &&& 255,
   (n >>> 24) &&& 255, (n >>> 16) &&& 255, (n >>> 8) &&& 255, n &&& 255]

def shaPad (msg : List Nat) : List Nat :=
  let len := msg.length
  let zeros := (120 - ((len + 1) % 64)) % 64
  msg ++ [0x80] ++ List.replicate zeros 0 ++ be64 (8 * len)

def chunks64Fuel : Nat → List Nat → List (List Nat)
  | 0, _ => []
  | _, [] => []
  | fuel + 1, a :: l => ((a :: l).take 64) :: chunks64Fuel fuel ((a :: l).drop 64)

def chunks64 (l : List Nat) : List (List Nat) := chunks64Fuel l.length l

def words16 (block : List Nat) : List Nat :=
  (List.range 16).map (fun i =>
    ((block.getD (4 * i) 0) <<< 24) ||| ((block.getD (4 * i + 1) 0) <<< 16) |||
    ((block.getD (4 * i + 2) 0) <<< 8) ||| (block.getD (4 * i + 3) 0))

def shaExtend (w0 : List Nat) : List Nat :=
  (List.range 48).foldl (fun w _ =>
    let t := w.length
    w ++ [add32 (add32 (ssig1 (w.getD (t - 2) 0)) (w.getD (t - 7) 0))
                (add32 (ssig0 (w.getD (t - 15) 0)) (w.getD (t - 16) 0))]) w0

def shaRound (st : List Nat) (kw : Nat × Nat) : List Nat :=
  match st with
  | [a, b, c, d, e, f, g, h] =>
    let t1 := add32 h (add32 (bsig1 e) (add32 (shaCh e f g) (add32 kw.1 kw.2)))
    let t2 := add32 (bsig0 a) (shaMaj a b c)
    [add32 t1 t2, a, b, c, add32 d t1, e, f, g]
  | st => st

def shaCompress (st : List Nat) (block : List Nat) : List Nat :=
  let w := shaExtend (words16 block)
  let fin := (shaK.zip w).foldl shaRound st
  (st.zip fin).map (fun p => add32 p.1 p.2)

def wordBytesBE (x : Nat) : List Nat :=
  [(x >>> 24) &&& 255, (x >>> 16) &&& 255, (x >>> 8) &&& 255, x &&& 255]

def sha256 (msg : List Nat) : List Nat :=
  ((chunks64 (shaPad msg)).foldl shaCompress shaH0).flatMap wordBytesBE

/-- Validation of the SHA-256 embedding: the FIPS 180-4 test vector for the empty message. -/
theorem sha256_nil_vector :
    sha256 [] =
      [0xe3, 0xb0, 0xc4, 0x42, 0x98, 0xfc, 0x1c, 0x14, 0x9a, 0xfb, 0xf4, 0xc8, 0x99, 0x6f, 0xb9,
       0x24, 0x27, 0xae, 0x41, 0xe4, 0x64, 0x9b, 0x93, 0x4c, 0xa4, 0x95, 0x99, 0x1b, 0x78, 0x52,
       0xb8, 0x55] := by
  decide

/-- Validation of the SHA-256 embedding: the FIPS 180-4 test vector for the message "abc". -/
theorem sha256_abc_vector :
    sha256 [0x61, 0x62, 0x63] =
      [0xba, 0x78, 0x16, 0xbf, 0x8f, 0x01, 0xcf, 0xea, 0x41, 0x41, 0x40, 0xde, 0x5d, 0xae, 0x22,
       0x23, 0xb0, 0x03, 0x61, 0xa3, 0x96, 0x17, 0x7a, 0x9c, 0xb4, 0x10, 0xff, 0x61, 0xf2, 0x00,
       0x15, 0xad] := by
  decide

theorem shaRound_length (st : List Nat) (kw : Nat × Nat) :
    (shaRound st kw).length = st.length := by
  unfold shaRound
  rcases st with _ | ⟨a, _ | ⟨b, _ | ⟨c, _ | ⟨d, _ | ⟨e, _ | ⟨f, _ | ⟨g, _ | ⟨h, _ | ⟨i, t⟩⟩⟩⟩⟩⟩⟩⟩⟩ <;> rfl

theorem foldl_shaRound_length (l : List (Nat × Nat)) :
    ∀ st : List Nat, (l.foldl shaRound st).length = st.length := by
  induction l with
  | nil => intro st; rfl
  | cons x xs ih => intro st; rw [List.foldl_cons, ih, shaRound_length]

theorem shaCompress_length (st b : List Nat) : (shaCompress st b).length = st.length := by
  unfold shaCompress
  simp [foldl_shaRound_length]

theorem foldl_shaCompress_length (bs : List (List Nat)) :
    ∀ st : List Nat, (bs.foldl shaCompress st).length = st.length := by
  induction bs with
  | nil => intro st; rfl
  | cons x xs ih => intro st; rw [List.foldl_cons, ih, shaCompress_length]

theorem flatMap_wordBytesBE_length (l : List Nat) :
    (l.flatMap wordBytesBE).length = 4 * l.length := by
  induction l with
  | nil => rfl
  | cons x xs ih =>
    simp only [List.flatMap_cons, List.length_append, ih, List.length_cons, wordBytesBE,
      List.length_nil]
    omega

/-- Every SHA-256 digest in this embedding is exactly 32 bytes. -/
theorem sha256_length (msg : List Nat) : (sha256 msg).length = 32 := by
  unfold sha256
  rw [flatMap_wordBytesBE_length, foldl_shaCompress_length]
  rfl

/-! ### UTF-8 encoding of strings (the Rust side hashes the UTF-8 bytes of format strings) -/

def utf8Bytes (c : Char) : List Nat :=
  let n := c.toNat
  if n < 0x80 then [n]
  else if n < 0x800 then [0xc0 ||| (n >>> 6), 0x80 ||| (n &&& 0x3f)]
  else if n < 0x10000 then
    [0xe0 ||| (n >>> 12), 0x80 ||| ((n >>> 6) &&& 0x3f), 0x80 ||| (n &&& 0x3f)]
  else
    [0xf0 ||| (n >>> 18), 0x80 ||| ((n >>> 12) &&& 0x3f), 0x80 ||| ((n >>> 6) &&& 0x3f),
     0x80 ||| (n &&& 0x3f)]

def strBytes (s : String) : List Nat := s.data.flatMap utf8Bytes

/-! ### Crockford base32, lowercase, as used by the fast32 crate on 5-byte inputs -/

def crockfordLowerAlphabet : List Char := "0123456789abcdefghjkmnpqrstvwxyz".data

def beNat (bs : List Nat) : Nat := bs.foldl (fun acc b => acc * 256 + b) 0

def base32_crockford_lower (bs : List Nat) : String :=
  let bits := 8 * bs.length
  let groups := (bits + 4) / 5
  let n := (beNat bs) <<< ((5 - bits % 5) % 5)
  String.mk ((List.range groups).map
    (fun i => crockfordLowerAlphabet.getD ((n >>> (5 * (groups - 1 - i))) &&& 31) '0'))

/-- Validation of the base32 embedding: the classic Crockford example, "hello" encodes
to d1jprv3f. -/
theorem base32_crockford_hello :
    base32_crockford_lower [0x68, 0x65, 0x6c, 0x6c, 0x6f] = "d1jprv3f" := by decide

/-- Validation of the base32 embedding: five zero bytes encode to eight zero digits. -/
theorem base32_crockford_zeros :
    base32_crockford_lower [0, 0, 0, 0, 0] = "00000000" := by decide

/-! ### Address computer (src/crates/deployer-server/src/deploy.rs) -/

/-- Translated from `calculate_static_tcp_port` (deploy.rs:133-150): hash the formatted
string "slug/ct/port,bump", read the first two digest bytes as a little-endian u16
(`u16::from_le_bytes`), and saturating-add 1025. Being a Lean function, it is by
construction a pure function of its four arguments. -/
def calculate_static_tcp_port (chall_id container_name : String) (port bump : Nat) : Nat :=
  let h := sha256 (strBytes
    (chall_id ++ "/" ++ container_name ++ "/" ++ toString port ++ "," ++ toString bump))
  let n := h.getD 0 0 + 256 * h.getD 1 0
  min (n + 1025) 65535

/-- The static TCP port formula as the specification words it (§4.3): the first two bytes
of the digest of "slug/ct/container_port,bump_seed" read as a little-endian uint16, plus
1025 with saturation at the u16 maximum. -/
def leBytesNat (bs : List Nat) : Nat := bs.foldr (fun b acc => b + 256 * acc) 0

def spec_static_tcp_port (slug ct : String) (container_port bump_seed : Nat) : Nat :=
  let digest := sha256 (strBytes
    (slug ++ "/" ++ ct ++ "/" ++ toString container_port ++ "," ++ toString bump_seed))
  let le16 := leBytesNat (digest.take 2)
  if le16 + 1025 ≤ 65535 then le16 + 1025 else 65535

/-- Translated from `calculate_subdomain` (deploy.rs:111-131): hash
"slug/public_team_id_or_empty/port", take the first five digest bytes (40 bits), encode
in lowercase Crockford base32, and prepend "slug-". -/
def calculate_subdomain (chall_id : String) (pub_team_id : Option String) (port : Nat) :
    String :=
  let h := sha256 (strBytes (chall_id ++ "/" ++ pub_team_id.getD "" ++ "/" ++ toString port))
  let num := h.take 5
  chall_id ++ "-" ++ base32_crockford_lower num

/-- The HTTP subdomain formula as the specification words it (§4.3): slug, a hyphen, then
the lowercase Crockford base32 encoding of the first five bytes of the digest of
"slug/public_team_id_or_empty/container_port", a missing team id contributing the empty
string. -/
def spec_subdomain (slug : String) (public_team_id : Option String) (container_port : Nat) :
    String :=
  let teamPart := match public_team_id with
    | some t => t
    | none => ""
  slug ++ "-" ++ base32_crockford_lower
    ((sha256 (strBytes (slug ++ "/" ++ teamPart ++ "/" ++ toString container_port))).take 5)

/-- C5: for every slug, container name, container port and bump_seed, the static TCP host
port computed by the code equals the spec's formula: the first two bytes of
SHA256("slug/ct/container_port,bump_seed") read as a little-endian uint16, plus 1025 with
saturation. Both sides are pure functions of the four inputs, so recomputation after a
reload yields the identical port. -/
theorem claim_c5_static_port_formula (slug ct : String) (container_port bump_seed : Nat) :
    calculate_static_tcp_port slug ct container_port bump_seed =
      spec_static_tcp_port slug ct container_port bump_seed := by
  unfold calculate_static_tcp_port spec_static_tcp_port
  have h := sha256_length (strBytes
    (slug ++ "/" ++ ct ++ "/" ++ toString container_port ++ "," ++ toString bump_seed))
  generalize sha256 (strBytes
    (slug ++ "/" ++ ct ++ "/" ++ toString container_port ++ "," ++ toString bump_seed)) = d
    at h ⊢
  rcases d with _ | ⟨b0, _ | ⟨b1, t⟩⟩
  · simp at h
  · simp at h
  · simp [leBytesNat, List.getD_cons_zero, List.getD_cons_succ, List.take_succ_cons, min_def]

/-- C6: for every slug, optional public team id and container port, the HTTP subdomain
computed by the code equals the spec's formula (slug, hyphen, lowercase Crockford base32
of the first five digest bytes), and a missing team id contributes exactly the empty
string. Both sides are pure functions of the triple. -/
theorem claim_c6_subdomain_formula (slug : String) (team : Option String)
    (container_port : Nat) :
    calculate_subdomain slug team container_port = spec_subdomain slug team container_port
    ∧ calculate_subdomain slug none container_port =
        calculate_subdomain slug (some "") container_port := by
  constructor
  · cases team <;> rfl
  · rfl

/-! ### Data model (src/crates/deployer-common/src/challenge.rs, deploy.rs) -/

inductive DeploymentStrategy
  | Static
  | Instanced
deriving DecidableEq

inductive ExposeType
  | Tcp
  | Http
deriving DecidableEq

/-- Container spec; only the fields the deployment subsystem reads are modelled
(`expose` drives addressing; build, env, limits, cap_add, privileged do not affect any
claim under verification). -/
structure Container where
  expose : Option (List (Nat × ExposeType))
deriving DecidableEq

/-- Challenge spec; only the deployment-relevant fields are modelled. `container` is the
mapping from container-name to container spec, `host` is the optional host keychain id. -/
structure Challenge where
  id : String
  strategy : DeploymentStrategy
  bump_seed : Nat
  host : Option String
  container : Option (List (String × Container))
deriving DecidableEq

inductive HostMapping
  | Tcp (port : Nat) (base : String)
  | Http (subdomain : String) (base : String)
deriving DecidableEq

structure DeploymentDataS where
  container_id : String
  ports : List (Nat × HostMapping)
deriving DecidableEq

abbrev DeploymentData := List (String × DeploymentDataS)

/-- Deployment row of the `challenge_deployments` table; timestamps are integers. -/
structure ChallengeDeployment where
  id : Int
  public_id : String
  team_id : Option Int
  challenge_id : Int
  deployed : Bool
  data : Option DeploymentData
  created_at : Int
  expired_at : Option Int
  destroyed_at : Option Int
deriving DecidableEq

/-- Translated from `ChallengeDeployment::sanitize` (deploy.rs:41-58): scrub every
container_id in `data` to the sentinel before emission. -/
def ChallengeDeployment.sanitize (c : ChallengeDeployment) : ChallengeDeployment :=
  { c with
    data := c.data.map (fun d =>
      d.map (fun kv => (kv.1, { kv.2 with container_id := "redacted-xxxxx" }))) }

/-! ### Container and network names (deploy.rs:78-101); the Rust `team_id.unwrap()` panic
on a missing team is embedded as `none` (fallible code returns Option) -/

/-- Translated from `calculate_container_name` (deploy.rs:78-90). Static ignores the team;
Instanced calls `team_id.unwrap()`, which panics when `team_id` is None — modelled as
`none`. -/
def calculate_container_name (chall_id : String) (strategy : DeploymentStrategy)
    (ct : String) (team_id : Option Int) : Option String :=
  match strategy with
  | .Static => some (chall_id ++ "-container-" ++ ct)
  | .Instanced =>
    team_id.map (fun t => chall_id ++ "-team-" ++ toString t ++ "-container-" ++ ct)

/-- Translated from `calculate_network_name` (deploy.rs:92-101), with the same `unwrap`
embedding. -/
def calculate_network_name (chall_id : String) (strategy : DeploymentStrategy)
    (team_id : Option Int) : Option String :=
  match strategy with
  | .Static => some (chall_id ++ "-network")
  | .Instanced => team_id.map (fun t => chall_id ++ "-team-" ++ toString t ++ "-network")

/-- C10: with team_id = some t the Instanced naming functions are total and produce
"slug-team-t-container-ct" / "slug-team-t-network"; with strategy Instanced and
team_id = none they hit the `unwrap()` panic branch (embedded as `none`); Static naming
never consults the team. -/
theorem claim_c10_instanced_names_need_team (chall_id ct : String) (t : Int) :
    calculate_container_name chall_id .Instanced ct (some t) =
        some (chall_id ++ "-team-" ++ toString t ++ "-container-" ++ ct)
    ∧ calculate_network_name chall_id .Instanced (some t) =
        some (chall_id ++ "-team-" ++ toString t ++ "-network")
    ∧ calculate_container_name chall_id .Instanced ct none = none
    ∧ calculate_network_name chall_id .Instanced none = none
    ∧ ∀ team : Option Int,
        calculate_container_name chall_id .Static ct team =
            some (chall_id ++ "-container-" ++ ct)
        ∧ calculate_network_name chall_id .Static team = some (chall_id ++ "-network") := by
  exact ⟨rfl, rfl, rfl, rfl, fun team => ⟨rfl, rfl⟩⟩

/-! ### Scoped resource guards (deploy.rs:152-281); `adrop` returns the list of cleanup
calls it issues, in order -/

inductive RemoteCall
  | removeContainer (name : String) (v force : Bool)
  | removeNetwork (name : String)
  | caddyDeleteHost (host : String)
deriving DecidableEq

structure DockerGuard where
  containers : List String
  networks : List String
  committed : Bool
deriving DecidableEq

/-- Translated from `DockerGuard::new` (deploy.rs:162-170): starts uncommitted. -/
def DockerGuard.new : DockerGuard := ⟨[], [], false⟩

def DockerGuard.container (g : DockerGuard) (s : String) : DockerGuard :=
  { g with containers := g.containers ++ [s] }

def DockerGuard.network (g : DockerGuard) (n : String) : DockerGuard :=
  { g with networks := g.networks ++ [n] }

def DockerGuard.commit (g : DockerGuard) : DockerGuard := { g with committed := true }

/-- Translated from `DockerGuard::adrop` (deploy.rs:184-208): nothing if committed, else
force-remove every recorded container with volumes in reverse order, then remove every
recorded network in reverse order (failures swallowed with `.ok()`). -/
def DockerGuard.adrop (g : DockerGuard) : List RemoteCall :=
  if g.committed then []
  else g.containers.reverse.map (fun c => .removeContainer c true true)
       ++ g.networks.reverse.map .removeNetwork

structure CaddyGuard where
  routes : List String
  committed : Bool
deriving DecidableEq

/-- Translated from `CaddyGuard::new` (deploy.rs:234-242): the source initializes
`committed: true`. -/
def CaddyGuard.new : CaddyGuard := ⟨[], true⟩

def CaddyGuard.route (g : CaddyGuard) (r : String) : CaddyGuard :=
  { g with routes := g.routes ++ [r] }

def CaddyGuard.commit (g : CaddyGuard) : CaddyGuard := { g with committed := true }

/-- Translated from `CaddyGuard::adrop` (deploy.rs:252-267): nothing if committed, else a
delete-host request for every recorded route in reverse order. -/
def CaddyGuard.adrop (g : CaddyGuard) : List RemoteCall :=
  if g.committed then [] else g.routes.reverse.map .caddyDeleteHost

/-- C4 (code_bug evaluation at the failing input): a deploy attempt abandoned after
registering proxy routes issues no delete-host call at all, because `CaddyGuard::new`
initializes `committed: true` and `adrop` then returns early; the daemon guard, by
contrast, does replay its recorded containers and networks in reverse order when
abandoned, and is silent once committed. -/
theorem claim_c4_caddy_guard_cleanup_dead :
    (CaddyGuard.new).committed = true
    ∧ ((CaddyGuard.new.route "a-sub.example.com").route "b-sub.example.com").adrop = []
    ∧ (((DockerGuard.new.network "net").container "c1").container "c2").adrop =
        [.removeContainer "c2" true true, .removeContainer "c1" true true,
         .removeNetwork "net"]
    ∧ ((((DockerGuard.new.network "net").container "c1").container "c2").commit).adrop =
        [] := by
  decide

/-! ### HTTP control surface, deploy handler (src/crates/deployer-server/src/api.rs) -/

structure ChallengeDeploymentReq where
  challenge_id : Int
  team_id : Option Int
  lifetime : Option Nat
deriving DecidableEq

/-- Result type of the deploy handler. `alreadyDeployed` mirrors the source's
`Err(crate::error::Error::AlreadyDeployed)` at api.rs:77 — a unit variant constructed
with no payload. -/
inductive DeployApiResult
  | ok (row : ChallengeDeployment)
  | alreadyDeployed
deriving DecidableEq

/-- The row filter of the handler queries (api.rs:68, api.rs:114):
`team_id IS NOT DISTINCT FROM $1 AND challenge_id = $2 AND destroyed_at IS NULL`.
`IS NOT DISTINCT FROM` is equality treating NULLs as equal, i.e. `Option` equality. -/
def deployMatch (p : ChallengeDeploymentReq) (r : ChallengeDeployment) : Bool :=
  decide (r.team_id = p.team_id) && decide (r.challenge_id = p.challenge_id)
    && decide (r.destroyed_at = none)

/-- Modelled from the spec: the INSERT at api.rs:82 lists only (public_id, team_id,
challenge_id); the remaining columns take the schema defaults of the migrations, which
are not under src/. Per §4.5 the insert yields `deployed=false`, `data=NULL`, a NULL
`destroyed_at`/`expired_at`, and `created_at = now()`. -/
def inserted_row (p : ChallengeDeploymentReq) (new_id : Int) (fresh_public_id : String)
    (now : Int) : ChallengeDeployment :=
  { id := new_id, public_id := fresh_public_id, team_id := p.team_id,
    challenge_id := p.challenge_id, deployed := false, data := none,
    created_at := now, expired_at := none, destroyed_at := none }

/-- Translated from the `deploy_challenge` handler (api.rs:62-103): select any
non-destroyed row for the (challenge_id, team_id) pair; if one exists, return the bare
`AlreadyDeployed` error (the transaction is dropped, nothing inserted); otherwise insert
one new row with a fresh public id and return it sanitized. The second component is the
database after the transaction. -/
def deploy_challenge_api (db : List ChallengeDeployment) (p : ChallengeDeploymentReq)
    (new_id : Int) (fresh_public_id : String) (now : Int) :
    DeployApiResult × List ChallengeDeployment :=
  match db.find? (deployMatch p) with
  | some _ => (.alreadyDeployed, db)
  | none =>
    (.ok (inserted_row p new_id fresh_public_id now).sanitize,
     db ++ [inserted_row p new_id fresh_public_id now])

/-! ### Deploy engine task (deploy.rs:607-618): net committed database effect of
`deploy_challenge_task`; the engine body's only database write is the finalize UPDATE at
deploy.rs:573-580, and on any engine error the handler deletes the row and commits -/

inductive EngineOutcome
  | ok (data : DeploymentData) (expired_at : Option Int)
  | err
deriving DecidableEq

/-- Translated from `deploy_challenge_task` (deploy.rs:607-618): on engine success the
row is finalized (`deployed = TRUE, data, expired_at`); on engine error the row is
DELETEd — not marked destroyed — and the transaction is still committed. -/
def deploy_challenge_task (db : List ChallengeDeployment) (chall : ChallengeDeployment)
    (outcome : EngineOutcome) : List ChallengeDeployment :=
  match outcome with
  | .ok d e =>
    db.map (fun r =>
      if r.id = chall.id then { r with deployed := true, data := some d, expired_at := e }
      else r)
  | .err => db.filter (fun r => !decide (r.id = chall.id))

/-- C2: when the engine errors, the pending row is deleted (every surviving row is an
unchanged row of the old database with a different id — nothing is marked destroyed), and
if that row was the only live row for its (challenge, team) pair, a subsequent deploy of
the pair is not blocked: the handler inserts a fresh row instead of returning
AlreadyDeployed. -/
theorem claim_c2_failed_deploy_deletes_row (db : List ChallengeDeployment)
    (chall : ChallengeDeployment) :
    (∀ r ∈ deploy_challenge_task db chall .err, r ∈ db ∧ r.id ≠ chall.id)
    ∧ ((∀ r ∈ db, r.team_id = chall.team_id → r.challenge_id = chall.challenge_id →
          r.destroyed_at = none → r.id = chall.id) →
        ∀ p : ChallengeDeploymentReq, p.team_id = chall.team_id →
          p.challenge_id = chall.challenge_id →
          ∀ new_id fresh now,
            deploy_challenge_api (deploy_challenge_task db chall .err) p new_id fresh now =
              (.ok (inserted_row p new_id fresh now).sanitize,
               deploy_challenge_task db chall .err ++ [inserted_row p new_id fresh now])) := by
  constructor
  · intro r hr
    rw [deploy_challenge_task, List.mem_filter] at hr
    refine ⟨hr.1, ?_⟩
    simpa using hr.2
  · intro honly p hteam hchal new_id fresh now
    have hfind : (deploy_challenge_task db chall .err).find? (deployMatch p) = none := by
      rw [List.find?_eq_none]
      intro r hr
      rw [deploy_challenge_task, List.mem_filter] at hr
      intro hmatch
      rw [deployMatch, Bool.and_eq_true, Bool.and_eq_true] at hmatch
      have h1 : r.team_id = p.team_id := of_decide_eq_true hmatch.1.1
      have h2 : r.challenge_id = p.challenge_id := of_decide_eq_true hmatch.1.2
      have h3 : r.destroyed_at = none := of_decide_eq_true hmatch.2
      have hid : r.id = chall.id :=
        honly r hr.1 (h1.trans hteam) (h2.trans hchal) h3
      simpa [hid] using hr.2
    rw [deploy_challenge_api, hfind]

/-! ### Teardown (deploy.rs:620-734) -/

inductive DestroyError
  | alreadyDestroyed
  | notYetDeployed
  | remote
deriving DecidableEq

/-- Whether some proxy delete-host request issued by `destroy_challenge` (deploy.rs:687-699)
fails: it walks the spec's containers and, for each recorded HTTP mapping of that
container in the row data, posts a delete for "subdomain.base"; `?` propagates the first
failure. Container force-removal (deploy.rs:703-714) and network removal (deploy.rs:719)
failures are swallowed with `.ok()` and can never fail the teardown. -/
def http_route_delete_fails (caddy_base : String) (fail : String → Bool)
    (dd : DeploymentData) (cts : List (String × Container)) : Bool :=
  cts.any (fun ctp =>
    match dd.find? (fun kv => kv.1 == ctp.1) with
    | some kv =>
      kv.2.ports.any (fun pm =>
        match pm.2 with
        | .Http sub _ => fail (sub ++ "." ++ caddy_base)
        | .Tcp _ _ => false)
    | none => false)

/-- Translated from `destroy_challenge` (deploy.rs:620-724): reject AlreadyDestroyed /
NotYetDeployed; the destroyed_at/data UPDATE is executed inside the transaction, then the
early `Ok` returns (no data, spec missing, spec without containers) or the remote
cleanup; only a failing proxy delete-host request makes the function return an error
(via `?`), all docker removal failures being swallowed. The returned value is only
whether the transaction's work will be committed. -/
def destroy_challenge (spec? : Option Challenge) (caddy_base : String)
    (fail : String → Bool) (chall : ChallengeDeployment) : Except DestroyError Unit :=
  if chall.destroyed_at ≠ none then .error .alreadyDestroyed
  else if chall.deployed = false then .error .notYetDeployed
  else
    match chall.data with
    | none => .ok ()
    | some dd =>
      match spec? with
      | none => .ok ()
      | some cd =>
        match cd.container with
        | none => .ok ()
        | some cts =>
          if http_route_delete_fails caddy_base fail dd cts then .error .remote
          else .ok ()

/-- The committed UPDATE of deploy.rs:636-641: `data = NULL, destroyed_at = NOW()`. -/
def mark_destroyed (db : List ChallengeDeployment) (row_id : Int) (now : Int) :
    List ChallengeDeployment :=
  db.map (fun r =>
    if r.id = row_id then { r with data := none, destroyed_at := some now } else r)

/-- Translated from `destroy_challenge_task` (deploy.rs:726-734): if `destroy_challenge`
errors the transaction is NOT committed ("don't commit the tx"), so the database is
unchanged; otherwise the transaction, including the destroyed_at/data UPDATE, commits. -/
def destroy_challenge_task (db : List ChallengeDeployment) (spec? : Option Challenge)
    (caddy_base : String) (fail : String → Bool) (chall : ChallengeDeployment)
    (now : Int) : List ChallengeDeployment :=
  match destroy_challenge spec? caddy_base fail chall with
  | .error _ => db
  | .ok _ => mark_destroyed db chall.id now

/-! ### Claim C1: deploy handler -/

def c1_existing_a : ChallengeDeployment :=
  { id := 1, public_id := "pubA", team_id := some 3, challenge_id := 7, deployed := true,
    data := none, created_at := 0, expired_at := none, destroyed_at := none }

def c1_existing_b : ChallengeDeployment := { c1_existing_a with public_id := "pubB" }

def c1_req : ChallengeDeploymentReq :=
  { challenge_id := 7, team_id := some 3, lifetime := none }

/-- C1 is refuted in its "carrying the existing row's public_id" part: two databases
whose live row for the pair differs only in public_id produce the very same handler
result, the bare payload-less AlreadyDeployed error of api.rs:77 — so the error cannot
carry (or even determine) the existing row's public_id. -/
theorem claim_c1_counterexample :
    (deploy_challenge_api [c1_existing_a] c1_req 2 "fresh" 0).1 = .alreadyDeployed
    ∧ (deploy_challenge_api [c1_existing_b] c1_req 2 "fresh" 0).1 = .alreadyDeployed
    ∧ c1_existing_a.public_id ≠ c1_existing_b.public_id
    ∧ (deploy_challenge_api [c1_existing_a] c1_req 2 "fresh" 0).1 =
        (deploy_challenge_api [c1_existing_b] c1_req 2 "fresh" 0).1 := by
  refine ⟨rfl, rfl, by decide, rfl⟩

/-- C1 as amended: if a live row for the pair exists the handler returns the payload-less
AlreadyDeployed error and inserts nothing; otherwise it inserts exactly one new row with
deployed = false, data = NULL and the fresh public_id, and returns that row sanitized
(sanitization is the identity here since data is NULL). -/
theorem claim_c1_amended (db : List ChallengeDeployment) (p : ChallengeDeploymentReq)
    (new_id : Int) (fresh : String) (now : Int) :
    (db.find? (deployMatch p) ≠ none →
      deploy_challenge_api db p new_id fresh now = (.alreadyDeployed, db))
    ∧ (db.find? (deployMatch p) = none →
      deploy_challenge_api db p new_id fresh now =
        (.ok (inserted_row p new_id fresh now).sanitize,
         db ++ [inserted_row p new_id fresh now])
      ∧ (inserted_row p new_id fresh now).deployed = false
      ∧ (inserted_row p new_id fresh now).data = none
      ∧ (inserted_row p new_id fresh now).public_id = fresh
      ∧ (inserted_row p new_id fresh now).sanitize = inserted_row p new_id fresh now) := by
  cases hfind : db.find? (deployMatch p) with
  | some r =>
    refine ⟨fun _ => ?_, fun h => absurd h (by simp [hfind])⟩
    rw [deploy_challenge_api, hfind]
  | none =>
    refine ⟨fun h => absurd rfl h, fun _ => ⟨?_, rfl, rfl, rfl, rfl⟩⟩
    rw [deploy_challenge_api, hfind]

theorem claim_c1_amended_witness :
    List.find? (deployMatch c1_req) [] = none
    ∧ deploy_challenge_api [] c1_req 2 "fresh" 0 =
        (.ok (inserted_row c1_req 2 "fresh" 0).sanitize, [inserted_row c1_req 2 "fresh" 0]) :=
  ⟨by decide, ((claim_c1_amended [] c1_req 2 "fresh" 0).2 (by decide)).1⟩

/-! ### Claim C2 witness -/

def c2_row : ChallengeDeployment :=
  { id := 1, public_id := "p", team_id := some 3, challenge_id := 7, deployed := false,
    data := none, created_at := 0, expired_at := none, destroyed_at := none }

def c2_req : ChallengeDeploymentReq :=
  { challenge_id := 7, team_id := some 3, lifetime := none }

theorem claim_c2_witness :
    deploy_challenge_api (deploy_challenge_task [c2_row] c2_row .err) c2_req 2 "f" 9 =
      (.ok (inserted_row c2_req 2 "f" 9).sanitize,
       deploy_challenge_task [c2_row] c2_row .err ++ [inserted_row c2_req 2 "f" 9]) :=
  (claim_c2_failed_deploy_deletes_row [c2_row] c2_row).2 (by decide) c2_req (by decide)
    (by decide) 2 "f" 9

/-! ### Claim C3: teardown commit semantics -/

def c3_spec : Challenge :=
  { id := "chal", strategy := .Static, bump_seed := 0, host := none,
    container := some [("default", { expose := some [(80, .Http)] })] }

def c3_row : ChallengeDeployment :=
  { id := 1, public_id := "p", team_id := none, challenge_id := 7, deployed := true,
    data := some [("default",
      { container_id := "chal-container-default",
        ports := [(80, .Http "chal-sub" "hosts.example")] })],
    created_at := 0, expired_at := none, destroyed_at := none }

/-- C3 is refuted: on a deployed, non-destroyed row whose recorded HTTP proxy route
delete request fails, `destroy_challenge` errors and `destroy_challenge_task` does not
commit the transaction ("don't commit the tx", deploy.rs:730), so the destroyed_at/data
UPDATE is rolled back and the row is NOT marked destroyed. -/
theorem claim_c3_counterexample :
    destroy_challenge (some c3_spec) "hosts.example" (fun _ => true) c3_row =
      .error .remote
    ∧ destroy_challenge_task [c3_row] (some c3_spec) "hosts.example" (fun _ => true)
        c3_row 5 = [c3_row]
    ∧ c3_row.deployed = true ∧ c3_row.destroyed_at = none := by
  exact ⟨rfl, rfl, rfl, rfl⟩

/-- C3 as amended: the destroyed-marking UPDATE is committed exactly when the teardown
body returns Ok — which covers every container/network removal failure, those being
swallowed — but when an error propagates (in particular a failing proxy delete-host
request, which yields the Remote error), the transaction is rolled back and the database
is unchanged. -/
theorem claim_c3_amended (spec? : Option Challenge) (base : String) (fail : String → Bool)
    (chall : ChallengeDeployment) (db : List ChallengeDeployment) (now : Int) :
    (destroy_challenge spec? base fail chall = .ok () →
      destroy_challenge_task db spec? base fail chall now = mark_destroyed db chall.id now
      ∧ ∀ r ∈ mark_destroyed db chall.id now, r.id = chall.id →
          r.destroyed_at = some now ∧ r.data = none)
    ∧ (∀ e, destroy_challenge spec? base fail chall = .error e →
        destroy_challenge_task db spec? base fail chall now = db)
    ∧ (chall.destroyed_at = none → chall.deployed = true →
        ∀ dd cd cts, chall.data = some dd → spec? = some cd → cd.container = some cts →
          http_route_delete_fails base fail dd cts = true →
          destroy_challenge spec? base fail chall = .error .remote) := by
  refine ⟨fun hok => ⟨?_, ?_⟩, fun e herr => ?_, fun hdest hdep dd cd cts hdd hcd hcts hfail => ?_⟩
  · rw [destroy_challenge_task, hok]
  · intro r hr hid
    rw [mark_destroyed, List.mem_map] at hr
    obtain ⟨a, ha, rfl⟩ := hr
    by_cases h : a.id = chall.id
    · simp [h]
    · simp only [if_neg h] at hid ⊢
      exact absurd hid h
  · rw [destroy_challenge_task, herr]
  · rw [destroy_challenge]
    simp [hdest, hdep, hdd, hcd, hcts, hfail]

theorem claim_c3_amended_witness :
    destroy_challenge (some c3_spec) "hosts.example" (fun _ => false) c3_row = .ok ()
    ∧ destroy_challenge_task [c3_row] (some c3_spec) "hosts.example" (fun _ => false)
        c3_row 5 = mark_destroyed [c3_row] c3_row.id 5 :=
  ⟨rfl,
   ((claim_c3_amended (some c3_spec) "hosts.example" (fun _ => false) c3_row [c3_row] 5).1
     rfl).1⟩

/-! ### Claim C8: destroy handler -/

/-- Translated from the `destroy_challenge` handler (api.rs:108-130): select the live row
for the pair; if none, return success immediately (idempotent); else spawn the teardown
task on that row (second component) and still return success to the caller. -/
def destroy_challenge_api (db : List ChallengeDeployment) (p : ChallengeDeploymentReq) :
    (Except DestroyError Unit) × Option ChallengeDeployment :=
  match db.find? (deployMatch p) with
  | none => (.ok (), none)
  | some d => (.ok (), some d)

def c8_row : ChallengeDeployment :=
  { id := 1, public_id := "p", team_id := some 3, challenge_id := 7, deployed := false,
    data := none, created_at := 0, expired_at := none, destroyed_at := none }

def c8_req : ChallengeDeploymentReq :=
  { challenge_id := 7, team_id := some 3, lifetime := none }

/-- C8 is refuted in its second half: on a matched row with deployed = false the handler
returns success to the caller (it only spawns the teardown); the NotYetDeployed
state-machine violation is raised inside the spawned task, which aborts without
committing — nothing resembling a 409 reaches the destroy caller. -/
theorem claim_c8_counterexample :
    destroy_challenge_api [c8_row] c8_req = (.ok (), some c8_row)
    ∧ c8_row.deployed = false
    ∧ destroy_challenge none "base" (fun _ => false) c8_row = .error .notYetDeployed
    ∧ destroy_challenge_task [c8_row] none "base" (fun _ => false) c8_row 9 = [c8_row] := by
  exact ⟨rfl, rfl, rfl, rfl⟩

/-- C8 as amended: with no live row the handler returns success (destroy is idempotent);
with a live row it also returns success, handing the row to the spawned teardown task;
the NotYetDeployed violation (the reachable one, since the query excludes destroyed rows)
is detected inside that task, which rolls back and leaves the database unchanged. -/
theorem claim_c8_amended (db : List ChallengeDeployment) (p : ChallengeDeploymentReq) :
    (db.find? (deployMatch p) = none → destroy_challenge_api db p = (.ok (), none))
    ∧ (∀ d, db.find? (deployMatch p) = some d →
        destroy_challenge_api db p = (.ok (), some d))
    ∧ (∀ (d : ChallengeDeployment) (spec? : Option Challenge) (base : String)
        (fail : String → Bool) (now : Int) (db2 : List ChallengeDeployment),
        d.deployed = false → d.destroyed_at = none →
          destroy_challenge spec? base fail d = .error .notYetDeployed
          ∧ destroy_challenge_task db2 spec? base fail d now = db2) := by
  refine ⟨fun h => ?_, fun d h => ?_, fun d spec? base fail now db2 hdep hdest => ?_⟩
  · rw [destroy_challenge_api, h]
  · rw [destroy_challenge_api, h]
  · have hres : destroy_challenge spec? base fail d = .error .notYetDeployed := by
      rw [destroy_challenge]
      simp [hdest, hdep]
    exact ⟨hres, by rw [destroy_challenge_task, hres]⟩

theorem claim_c8_amended_witness :
    destroy_challenge_api [] c8_req = (.ok (), none)
    ∧ destroy_challenge none "b" (fun _ => false) c8_row = .error .notYetDeployed :=
  ⟨(claim_c8_amended [] c8_req).1 (by decide),
   (((claim_c8_amended [] c8_req).2.2 c8_row none "b" (fun _ => false) 9 [])
     (by decide) (by decide)).1⟩

/-! ### Claim C9: startup lease sweep (src/crates/deployer-server/src/main.rs:47-73) -/

/-- Translated from `main` (main.rs:47-73): select all rows with
`destroyed_at IS NULL AND expired_at IS NOT NULL` and pair each with the sleep delay
`(expired_at - now).max(zero)` of its spawned teardown timer. -/
def startup_schedule (db : List ChallengeDeployment) (now : Int) :
    List (Int × ChallengeDeployment) :=
  (db.filter (fun r => decide (r.destroyed_at = none) && !decide (r.expired_at = none))).map
    (fun r => (max (r.expired_at.getD 0 - now) 0, r))

theorem startup_schedule_mem (db : List ChallengeDeployment) (now d : Int)
    (r : ChallengeDeployment) :
    (d, r) ∈ startup_schedule db now ↔
      r ∈ db ∧ r.destroyed_at = none ∧ ∃ e, r.expired_at = some e ∧ d = max (e - now) 0 := by
  constructor
  · intro hmem
    rw [startup_schedule, List.mem_map] at hmem
    obtain ⟨a, ha, heq⟩ := hmem
    rw [List.mem_filter] at ha
    obtain ⟨hadb, hcond⟩ := ha
    rw [Bool.and_eq_true] at hcond
    have h1 : a.destroyed_at = none := of_decide_eq_true hcond.1
    have h2 : ¬ a.expired_at = none := by simpa using hcond.2
    obtain ⟨e, he⟩ := Option.ne_none_iff_exists'.mp h2
    rw [Prod.mk.injEq] at heq
    obtain ⟨hd, hr⟩ := heq
    subst hr
    exact ⟨hadb, h1, e, he, by rw [← hd, he, Option.getD_some]⟩
  · rintro ⟨hdb, h1, e, he, hd⟩
    rw [startup_schedule, List.mem_map]
    refine ⟨r, List.mem_filter.mpr ⟨hdb, by simp [h1, he]⟩, ?_⟩
    rw [Prod.mk.injEq]
    exact ⟨by rw [he, Option.getD_some, hd], rfl⟩

/-- C9: at startup a delayed teardown is scheduled exactly for the rows with
destroyed_at NULL and expired_at non-NULL, the delay being expired_at minus now clamped
to zero; in particular a row already past its lease fires immediately (delay zero), and
rows with destroyed_at set or expired_at NULL are never scheduled. -/
theorem claim_c9_startup_reaper (db : List ChallengeDeployment) (now d : Int)
    (r : ChallengeDeployment) :
    ((d, r) ∈ startup_schedule db now ↔
      r ∈ db ∧ r.destroyed_at = none ∧ ∃ e, r.expired_at = some e ∧ d = max (e - now) 0)
    ∧ (∀ e, r ∈ db → r.destroyed_at = none → r.expired_at = some e → e ≤ now →
        (0, r) ∈ startup_schedule db now) := by
  refine ⟨startup_schedule_mem db now d r, fun e hdb h1 he hle => ?_⟩
  exact (startup_schedule_mem db now 0 r).mpr ⟨hdb, h1, e, he, by omega⟩

def c9_row : ChallengeDeployment :=
  { id := 1, public_id := "p", team_id := some 3, challenge_id := 7, deployed := true,
    data := none, created_at := 0, expired_at := some 50, destroyed_at := none }

theorem claim_c9_witness : (0, c9_row) ∈ startup_schedule [c9_row] 100 :=
  (claim_c9_startup_reaper [c9_row] 100 0 c9_row).2 50 (by decide) (by decide) (by decide)
    (by decide)

/-! ### Catalog loading (src/crates/deployer-server/src/config.rs:134-185) -/

/-- Translated from `is_valid_id` (deployer-common challenge.rs:309-312): every character
is (non-uppercase and alphanumeric) or a hyphen. (ASCII classification; the claims are
decided on ASCII inputs, where Rust's Unicode-aware predicates agree.) -/
def is_valid_id (id : String) : Bool :=
  id.data.all (fun c => (!c.isUpper && c.isAlphanum) || c == '-')

/-- Structured embedding of the two eyre errors of `load_challenges_from_dir`:
"Duplicate challenge {id}" (config.rs:147) and "Static container {name} for challenge
{chall_id} wants to use port {port} on host {host} which is already used by challenge
{other_id}, try adding a bump_seed" (config.rs:164-171) — the collision message names
both colliding slugs and suggests bump_seed. -/
inductive LoadError
  | duplicate (id : String)
  | portCollision (name : String) (chall_id : String) (port : Nat) (host : Option String)
      (other_id : String)
deriving DecidableEq

/-- The accumulated `used_ports` table: entries (host, computed port, owning slug);
the source keys by the raw optional host (`chall.host.clone()`), so `none` and
`some "default"` are distinct keys, exactly as in the Rust HashMap. -/
abbrev UsedPorts := List (Option String × Nat × String)

/-- The static TCP exposures of one challenge, in catalog iteration order, as
(computed port, container name) — the inner loops of config.rs:150-180: only Static
strategy, only Tcp exposures, port computed by `calculate_static_tcp_port`. -/
def staticPortEntries (c : Challenge) : List (Nat × String) :=
  match c.strategy, c.container with
  | .Static, some cts =>
    cts.flatMap (fun ctp =>
      match ctp.2.expose with
      | some exps =>
        exps.flatMap (fun pe =>
          match pe.2 with
          | .Tcp => [(calculate_static_tcp_port c.id ctp.1 pe.1 c.bump_seed, ctp.1)]
          | .Http => [])
      | none => [])
  | _, _ => []

/-- The per-challenge port walk of config.rs:150-180: check each computed static port
against the `used_ports` table for its host; a hit is the hard collision error naming the
prior owner, otherwise the port is recorded (also catching collisions inside a single
challenge, since entries are recorded as the walk proceeds). -/
def registerPorts (host : Option String) (cid : String) :
    List (Nat × String) → UsedPorts → Except LoadError UsedPorts
  | [], used => .ok used
  | e :: rest, used =>
    match used.find? (fun u => decide (u.1 = host) && decide (u.2.1 = e.1)) with
    | some u => .error (.portCollision e.2 cid e.1 host u.2.2)
    | none => registerPorts host cid rest (used ++ [(host, e.1, cid)])

/-- The challenge walk of `load_challenges_from_dir` (config.rs:134-185): reject a slug
already in the map, then walk its static ports, then insert the spec keyed by slug. Slug
grammar is NOT checked here (`is_valid_id` is called only by the CLI's
`DeployableChallenge::from_root`). -/
def loadChallengesAux :
    List Challenge → List (String × Challenge) → UsedPorts →
      Except LoadError (List (String × Challenge))
  | [], m, _ => .ok m
  | c :: rest, m, used =>
    if (m.find? (fun kv => decide (kv.1 = c.id))).isSome then .error (.duplicate c.id)
    else
      match registerPorts c.host c.id (staticPortEntries c) used with
      | .error e => .error e
      | .ok used2 => loadChallengesAux rest (m ++ [(c.id, c)]) used2

/-- Translated from `load_challenges_from_dir` over the parsed specs in directory
order, starting from an empty map and an empty used-ports table. -/
def load_challenges_from_dir (challs : List Challenge) :
    Except LoadError (List (String × Challenge)) :=
  loadChallengesAux challs [] []

def challIds (challs : List Challenge) : List String := challs.map (fun c => c.id)

def challKeys (c : Challenge) : List (Option String × Nat) :=
  (staticPortEntries c).map (fun e => (c.host, e.1))

def allKeys (challs : List Challenge) : List (Option String × Nat) :=
  challs.flatMap challKeys

def usedKeys (used : UsedPorts) : List (Option String × Nat) :=
  used.map (fun u => (u.1, u.2.1))

def usedOwners (used : UsedPorts) : List String := used.map (fun u => u.2.2)

theorem usedKeys_append (a b : UsedPorts) : usedKeys (a ++ b) = usedKeys a ++ usedKeys b :=
  List.map_append _ a b

theorem usedKeys_entries (host : Option String) (cid : String)
    (entries : List (Nat × String)) :
    usedKeys (entries.map (fun e => (host, e.1, cid))) =
      entries.map (fun e => (host, e.1)) := by
  rw [usedKeys, List.map_map]
  rfl

theorem usedOwners_append (a b : UsedPorts) :
    usedOwners (a ++ b) = usedOwners a ++ usedOwners b :=
  List.map_append _ a b

theorem usedOwners_entries (host : Option String) (cid : String)
    (entries : List (Nat × String)) :
    usedOwners (entries.map (fun e => (host, e.1, cid))) = entries.map (fun _ => cid) := by
  rw [usedOwners, List.map_map]
  rfl

theorem findPort_none_iff (used : UsedPorts) (host : Option String) (p : Nat) :
    used.find? (fun u => decide (u.1 = host) && decide (u.2.1 = p)) = none ↔
      (host, p) ∉ usedKeys used := by
  rw [List.find?_eq_none, usedKeys]
  constructor
  · intro h hmem
    rw [List.mem_map] at hmem
    obtain ⟨u, hu, heq⟩ := hmem
    rw [Prod.mk.injEq] at heq
    exact (h u hu) (by simp [heq.1, heq.2])
  · intro h u hu hcond
    apply h
    rw [List.mem_map]
    rw [Bool.and_eq_true] at hcond
    refine ⟨u, hu, ?_⟩
    rw [Prod.mk.injEq]
    exact ⟨of_decide_eq_true hcond.1, of_decide_eq_true hcond.2⟩

theorem registerPorts_ok_val (host : Option String) (cid : String) :
    ∀ (entries : List (Nat × String)) (used u2 : UsedPorts),
      registerPorts host cid entries used = .ok u2 →
      u2 = used ++ entries.map (fun e => (host, e.1, cid)) := by
  intro entries
  induction entries with
  | nil =>
    intro used u2 h
    simp only [registerPorts, Except.ok.injEq] at h
    rw [← h, List.map_nil, List.append_nil]
  | cons e rest ih =>
    intro used u2 h
    simp only [registerPorts] at h
    cases hf : used.find? (fun u => decide (u.1 = host) && decide (u.2.1 = e.1)) with
    | some u =>
      rw [hf] at h
      exact Except.noConfusion h
    | none =>
      rw [hf] at h
      rw [ih _ _ h, List.append_assoc]
      rfl

theorem registerPorts_ok_conds (host : Option String) (cid : String) :
    ∀ (entries : List (Nat × String)) (used u2 : UsedPorts),
      registerPorts host cid entries used = .ok u2 →
      (entries.map (fun e => (host, e.1))).Nodup
      ∧ ∀ k ∈ entries.map (fun e => (host, e.1)), k ∉ usedKeys used := by
  intro entries
  induction entries with
  | nil => intro used u2 _; exact ⟨List.nodup_nil, by simp⟩
  | cons e rest ih =>
    intro used u2 h
    simp only [registerPorts] at h
    cases hf : used.find? (fun u => decide (u.1 = host) && decide (u.2.1 = e.1)) with
    | some u =>
      rw [hf] at h
      exact Except.noConfusion h
    | none =>
      rw [hf] at h
      have hnotin : (host, e.1) ∉ usedKeys used := (findPort_none_iff used host e.1).mp hf
      obtain ⟨hnd, hdisj⟩ := ih _ _ h
      constructor
      · rw [List.map_cons, List.nodup_cons]
        refine ⟨fun hmem => ?_, hnd⟩
        have := hdisj _ hmem
        rw [usedKeys_append] at this
        simp [usedKeys] at this
      · intro k hk
        rw [List.map_cons, List.mem_cons] at hk
        cases hk with
        | inl hk => rw [hk]; exact hnotin
        | inr hk =>
          have := hdisj _ hk
          rw [usedKeys_append] at this
          intro hku
          exact this (List.mem_append_left _ hku)

theorem registerPorts_ok_of_conds (host : Option String) (cid : String) :
    ∀ (entries : List (Nat × String)) (used : UsedPorts),
      (entries.map (fun e => (host, e.1))).Nodup →
      (∀ k ∈ entries.map (fun e => (host, e.1)), k ∉ usedKeys used) →
      registerPorts host cid entries used =
        .ok (used ++ entries.map (fun e => (host, e.1, cid))) := by
  intro entries
  induction entries with
  | nil => intro used _ _; simp [registerPorts]
  | cons e rest ih =>
    intro used hnd hdisj
    have hf : used.find? (fun u => decide (u.1 = host) && decide (u.2.1 = e.1)) = none :=
      (findPort_none_iff used host e.1).mpr (hdisj _ (by simp))
    rw [List.map_cons, List.nodup_cons] at hnd
    have hrec : registerPorts host cid rest (used ++ [(host, e.1, cid)]) =
        .ok ((used ++ [(host, e.1, cid)]) ++ rest.map (fun e => (host, e.1, cid))) := by
      apply ih
      · exact hnd.2
      · intro k hk
        rw [usedKeys_append]
        intro hku
        rcases List.mem_append.mp hku with h1 | h2
        · exact hdisj k (by simp [hk]) h1
        · have hkp : k = (host, e.1) := by simpa [usedKeys] using h2
          exact hnd.1 (hkp ▸ hk)
    simp only [registerPorts, hf]
    rw [hrec, List.append_assoc]
    rfl

theorem registerPorts_collision_src (host : Option String) (cid : String) :
    ∀ (entries : List (Nat × String)) (used : UsedPorts) (n cid2 : String) (p : Nat)
      (h : Option String) (o : String),
      registerPorts host cid entries used = .error (.portCollision n cid2 p h o) →
      cid2 = cid ∧ (o ∈ usedOwners used ∨ o = cid) := by
  intro entries
  induction entries with
  | nil => intro used n cid2 p h o hh; simp [registerPorts] at hh
  | cons e rest ih =>
    intro used n cid2 p h o hh
    simp only [registerPorts] at hh
    cases hf : used.find? (fun u => decide (u.1 = host) && decide (u.2.1 = e.1)) with
    | some u =>
      rw [hf] at hh
      have hu : u ∈ used := List.mem_of_find?_eq_some hf
      simp only [Except.error.injEq, LoadError.portCollision.injEq] at hh
      refine ⟨hh.2.1.symm, Or.inl ?_⟩
      rw [← hh.2.2.2.2, usedOwners, List.mem_map]
      exact ⟨u, hu, rfl⟩
    | none =>
      rw [hf] at hh
      obtain ⟨h1, h2⟩ := ih _ _ _ _ _ _ hh
      refine ⟨h1, ?_⟩
      rcases h2 with ha | hb
      · rw [usedOwners_append] at ha
        rcases List.mem_append.mp ha with hx | hy
        · exact Or.inl hx
        · right
          simpa [usedOwners] using hy
      · exact Or.inr hb

theorem loadAux_ok_val :
    ∀ (challs : List Challenge) (m : List (String × Challenge)) (used : UsedPorts) r,
      loadChallengesAux challs m used = .ok r →
      r = m ++ challs.map (fun c => (c.id, c)) := by
  intro challs
  induction challs with
  | nil =>
    intro m used r h
    simp only [loadChallengesAux, Except.ok.injEq] at h
    rw [← h, List.map_nil, List.append_nil]
  | cons c rest ih =>
    intro m used r h
    simp only [loadChallengesAux] at h
    by_cases hdup : (m.find? (fun kv => decide (kv.1 = c.id))).isSome
    · rw [if_pos hdup] at h
      exact Except.noConfusion h
    · rw [if_neg hdup] at h
      cases hrp : registerPorts c.host c.id (staticPortEntries c) used with
      | error e =>
        rw [hrp] at h
        exact Except.noConfusion h
      | ok used2 =>
        rw [hrp] at h
        rw [ih _ _ _ h, List.append_assoc]
        rfl

theorem loadAux_ok_conds :
    ∀ (challs : List Challenge) (m : List (String × Challenge)) (used : UsedPorts) r,
      loadChallengesAux challs m used = .ok r →
      (challIds challs).Nodup ∧ (allKeys challs).Nodup
      ∧ (∀ i ∈ challIds challs, ∀ kv ∈ m, kv.1 ≠ i)
      ∧ (∀ k ∈ allKeys challs, k ∉ usedKeys used) := by
  intro challs
  induction challs with
  | nil =>
    intro m used r _
    exact ⟨List.nodup_nil, List.nodup_nil, by simp [challIds], by simp [allKeys]⟩
  | cons c rest ih =>
    intro m used r h
    simp only [loadChallengesAux] at h
    by_cases hdup : (m.find? (fun kv => decide (kv.1 = c.id))).isSome
    · rw [if_pos hdup] at h
      exact Except.noConfusion h
    · rw [if_neg hdup] at h
      cases hrp : registerPorts c.host c.id (staticPortEntries c) used with
      | error e =>
        rw [hrp] at h
        exact Except.noConfusion h
      | ok used2 =>
        rw [hrp] at h
        have hval := registerPorts_ok_val c.host c.id (staticPortEntries c) used used2 hrp
        obtain ⟨hcnd, hcdisj⟩ :=
          registerPorts_ok_conds c.host c.id (staticPortEntries c) used used2 hrp
        obtain ⟨hir, hkr, hmr, hur⟩ := ih _ _ _ h
        have hfnone : m.find? (fun kv => decide (kv.1 = c.id)) = none :=
          Option.not_isSome_iff_eq_none.mp hdup
        have hfm : ∀ kv ∈ m, kv.1 ≠ c.id := by
          intro kv hkv
          have := List.find?_eq_none.mp hfnone kv hkv
          simpa using this
        have hcid_notin_rest : c.id ∉ challIds rest :=
          fun hmem => hmr c.id hmem (c.id, c) (by simp) rfl
        have hu2 : usedKeys used2 =
            usedKeys used ++ (staticPortEntries c).map (fun e => (c.host, e.1)) := by
          rw [hval, usedKeys_append, usedKeys_entries]
        have hkeys : allKeys (c :: rest) = challKeys c ++ allKeys rest := by
          simp [allKeys]
        refine ⟨?_, ?_, ?_, ?_⟩
        · rw [challIds, List.map_cons, List.nodup_cons]
          exact ⟨hcid_notin_rest, hir⟩
        · rw [hkeys, List.nodup_append]
          refine ⟨hcnd, hkr, fun k hk1 hk2 => ?_⟩
          apply hur k hk2
          rw [hu2]
          exact List.mem_append_right _ hk1
        · intro i hi kv hkv
          rw [challIds, List.map_cons, List.mem_cons] at hi
          cases hi with
          | inl hi => rw [hi]; exact hfm kv hkv
          | inr hi => exact hmr i hi kv (List.mem_append_left _ hkv)
        · intro k hk
          rw [hkeys] at hk
          rcases List.mem_append.mp hk with h1 | h2
          · exact hcdisj k h1
          · intro hku
            apply hur k h2
            rw [hu2]
            exact List.mem_append_left _ hku

theorem loadAux_ok_of_conds :
    ∀ (challs : List Challenge) (m : List (String × Challenge)) (used : UsedPorts),
      (challIds challs).Nodup → (allKeys challs).Nodup →
      (∀ i ∈ challIds challs, ∀ kv ∈ m, kv.1 ≠ i) →
      (∀ k ∈ allKeys challs, k ∉ usedKeys used) →
      loadChallengesAux challs m used = .ok (m ++ challs.map (fun c => (c.id, c))) := by
  intro challs
  induction challs with
  | nil => intro m used _ _ _ _; simp [loadChallengesAux]
  | cons c rest ih =>
    intro m used hnid hnk hm hk
    have hcidm : ∀ kv ∈ m, kv.1 ≠ c.id :=
      fun kv hkv => hm c.id (by simp [challIds]) kv hkv
    have hfnone : m.find? (fun kv => decide (kv.1 = c.id)) = none := by
      rw [List.find?_eq_none]
      intro kv hkv
      simpa using hcidm kv hkv
    rw [challIds, List.map_cons, List.nodup_cons] at hnid
    have hkeys : allKeys (c :: rest) = challKeys c ++ allKeys rest := by
      simp [allKeys]
    rw [hkeys, List.nodup_append] at hnk
    obtain ⟨hnkc, hnkr, hdisjkeys⟩ := hnk
    have hrp : registerPorts c.host c.id (staticPortEntries c) used =
        .ok (used ++ (staticPortEntries c).map (fun e => (c.host, e.1, c.id))) := by
      apply registerPorts_ok_of_conds
      · exact hnkc
      · intro kk hkk
        exact hk kk (by rw [hkeys]; exact List.mem_append_left _ hkk)
    have hrec : loadChallengesAux rest (m ++ [(c.id, c)])
        (used ++ (staticPortEntries c).map (fun e => (c.host, e.1, c.id))) =
        .ok ((m ++ [(c.id, c)]) ++ rest.map (fun c => (c.id, c))) := by
      apply ih
      · exact hnid.2
      · exact hnkr
      · intro i hi kv hkv
        have hicons : i ∈ challIds (c :: rest) := by
          rw [challIds, List.map_cons]
          exact List.mem_cons_of_mem _ hi
        rcases List.mem_append.mp hkv with h1 | h2
        · exact hm i hicons kv h1
        · have : kv = (c.id, c) := by simpa using h2
          rw [this]
          intro heq
          apply hnid.1
          have hci : c.id = i := heq
          rw [hci]
          exact hi
      · intro k hkmem
        rw [usedKeys_append, usedKeys_entries]
        intro hku
        rcases List.mem_append.mp hku with h1 | h2
        · exact hk k (by rw [hkeys]; exact List.mem_append_right _ hkmem) h1
        · exact hdisjkeys h2 hkmem
    simp only [loadChallengesAux, hfnone, Option.isSome_none, Bool.false_eq_true,
      if_false, hrp]
    rw [hrec, List.append_assoc]
    rfl

theorem loadAux_collision_src :
    ∀ (challs : List Challenge) (m : List (String × Challenge)) (used : UsedPorts)
      (n cid : String) (p : Nat) (h : Option String) (o : String),
      loadChallengesAux challs m used = .error (.portCollision n cid p h o) →
      cid ∈ challIds challs ∧ (o ∈ challIds challs ∨ o ∈ usedOwners used) := by
  intro challs
  induction challs with
  | nil => intro m used n cid p h o hh; simp [loadChallengesAux] at hh
  | cons c rest ih =>
    intro m used n cid p h o hh
    simp only [loadChallengesAux] at hh
    by_cases hdup : (m.find? (fun kv => decide (kv.1 = c.id))).isSome
    · rw [if_pos hdup] at hh
      simp [Except.error.injEq] at hh
    · rw [if_neg hdup] at hh
      cases hrp : registerPorts c.host c.id (staticPortEntries c) used with
      | error e =>
        rw [hrp] at hh
        have he : e = .portCollision n cid p h o := by
          simpa [Except.error.injEq] using hh
        rw [he] at hrp
        obtain ⟨hcid, ho⟩ :=
          registerPorts_collision_src c.host c.id (staticPortEntries c) used n cid p h o hrp
        subst hcid
        refine ⟨by simp [challIds], ?_⟩
        rcases ho with h1 | h2
        · exact Or.inr h1
        · exact Or.inl (by simp [challIds, h2])
      | ok used2 =>
        rw [hrp] at hh
        have hval := registerPorts_ok_val c.host c.id (staticPortEntries c) used used2 hrp
        obtain ⟨h1, h2⟩ := ih _ _ _ _ _ _ _ hh
        refine ⟨by simp [challIds]; exact Or.inr (by simpa [challIds] using h1), ?_⟩
        rcases h2 with ha | hb
        · exact Or.inl (by simp [challIds]; exact Or.inr (by simpa [challIds] using ha))
        · rw [hval, usedOwners_append, usedOwners_entries] at hb
          rcases List.mem_append.mp hb with hx | hy
          · exact Or.inr hx
          · left
            have : o = c.id := by
              rw [List.mem_map] at hy
              obtain ⟨_, _, hz⟩ := hy
              exact hz.symm
            simp [challIds, this]

def c7_bad : Challenge :=
  { id := "BAD", strategy := .Static, bump_seed := 0, host := none, container := none }

/-- C7 is refuted in its slug-grammar part: a catalog containing one spec whose slug
"BAD" violates the identifier grammar (is_valid_id is false on it) loads successfully —
`load_challenges_from_dir` never consults `is_valid_id`, which is only enforced on the
CLI's DeployableChallenge::from_root path. -/
theorem claim_c7_counterexample :
    load_challenges_from_dir [c7_bad] = .ok [("BAD", c7_bad)]
    ∧ is_valid_id "BAD" = false := by
  exact ⟨rfl, by decide⟩

/-- C7 as amended: directory catalog loading fails on duplicate slugs and on static TCP
port collisions — successful loads are exactly those whose slugs are pairwise distinct
and whose static-TCP (host, computed port) keys are pairwise distinct, and a success
returns the full slug-to-spec map; a collision error names both involved slugs (and, in
the source text, suggests bump_seed). Slug grammar, however, is not validated on this
path. -/
theorem claim_c7_amended (challs : List Challenge) :
    (∀ r, load_challenges_from_dir challs = .ok r →
        r = challs.map (fun c => (c.id, c))
        ∧ (challIds challs).Nodup ∧ (allKeys challs).Nodup)
    ∧ ((challIds challs).Nodup → (allKeys challs).Nodup →
        load_challenges_from_dir challs = .ok (challs.map (fun c => (c.id, c))))
    ∧ (∀ n cid p h o,
        load_challenges_from_dir challs = .error (.portCollision n cid p h o) →
          cid ∈ challIds challs ∧ o ∈ challIds challs) := by
  refine ⟨fun r hr => ⟨?_, ?_, ?_⟩, fun h1 h2 => ?_, fun n cid p h o hh => ?_⟩
  · have := loadAux_ok_val challs [] [] r hr
    simpa using this
  · exact (loadAux_ok_conds challs [] [] r hr).1
  · exact (loadAux_ok_conds challs [] [] r hr).2.1
  · have := loadAux_ok_of_conds challs [] [] h1 h2 (by simp) (by simp [usedKeys])
    simpa using this
  · have := loadAux_collision_src challs [] [] n cid p h o hh
    refine ⟨this.1, ?_⟩
    rcases this.2 with ha | hb
    · exact ha
    · simp [usedOwners] at hb

def c7_a : Challenge :=
  { id := "alpha", strategy := .Static, bump_seed := 0, host := none, container := none }

def c7_b : Challenge :=
  { id := "beta", strategy := .Instanced, bump_seed := 0, host := none,
    container := some [("default", { expose := some [(31337, .Tcp)] })] }

theorem claim_c7_amended_witness :
    load_challenges_from_dir [c7_a, c7_b] = .ok [("alpha", c7_a), ("beta", c7_b)] :=
  (claim_c7_amended [c7_a, c7_b]).2.1 (by decide) (by decide)

end NerineTweaks
